import Mathlib

/-!
Verification of the OpenThread API data-model header
(`include/openthread-types.h`): the error taxonomy, the IPv6 address model
with its three numeric views, prefixes, configuration records, the
interface-address and UDP-socket registries, MAC counters, and the
state-changed notification flags.
-/

namespace OpenThread

/-- The `ThreadError` enumeration from `include/openthread-types.h`,
one constructor per enumerator of the C `enum ThreadError`. -/
inductive ThreadError where
  | None
  | Failed
  | Drop
  | NoBufs
  | NoRoute
  | Busy
  | Parse
  | InvalidArgs
  | Security
  | AddressQuery
  | NoAddress
  | NotReceiving
  | Abort
  | NotImplemented
  | InvalidState
  | NoTasklets
  | NoAck
  | ChannelAccessFailure
  | Detached
  | FcsErr
  | NoFrameReceived
  | UnknownNeighbor
  | InvalidSourceAddress
  | WhitelistFiltered
  | DestinationAddressFiltered
  | NotFound
  | Error
  deriving DecidableEq, Fintype

/-- The numeric code of each `ThreadError` enumerator, exactly the values
assigned in the C header (`kThreadError_None = 0` ... `kThreadError_Error = 255`). -/
def ThreadError.toCode : ThreadError → Nat
  | .None => 0
  | .Failed => 1
  | .Drop => 2
  | .NoBufs => 3
  | .NoRoute => 4
  | .Busy => 5
  | .Parse => 6
  | .InvalidArgs => 7
  | .Security => 8
  | .AddressQuery => 9
  | .NoAddress => 10
  | .NotReceiving => 11
  | .Abort => 12
  | .NotImplemented => 13
  | .InvalidState => 14
  | .NoTasklets => 15
  | .NoAck => 16
  | .ChannelAccessFailure => 17
  | .Detached => 18
  | .FcsErr => 19
  | .NoFrameReceived => 20
  | .UnknownNeighbor => 21
  | .InvalidSourceAddress => 22
  | .WhitelistFiltered => 23
  | .DestinationAddressFiltered => 24
  | .NotFound => 25
  | .Error => 255

/-- The `otIp6Address` structure: a packed union of 16 bytes (`m8`), eight
16-bit fields (`m16`) and four 32-bit fields (`m32`) over the same storage.
The model's state is the 16 bytes; the wider views are derived below. -/
structure Ip6Address where
  m8 : Fin 16 → Fin 256

instance : DecidableEq Ip6Address := fun a b =>
  decidable_of_iff (a.m8 = b.m8) (by cases a; cases b; simp)

/-- Read one byte of the shared storage at a `Nat` index (0 out of range). -/
def Ip6Address.byte (a : Ip6Address) (i : Nat) : Nat :=
  if h : i < 16 then (a.m8 ⟨i, h⟩ : Nat) else 0

/-- Overwrite one byte of the shared storage (out-of-range writes are no-ops,
values are stored modulo 256 as in the C `uint8_t` array). -/
def Ip6Address.setByte (a : Ip6Address) (i : Nat) (v : Nat) : Ip6Address :=
  ⟨fun j => if (j : Nat) = i then ⟨v % 256, Nat.mod_lt _ (by omega)⟩ else a.m8 j⟩

/-- The 8-bit view `mFields.m8[i]`. -/
def Ip6Address.get8 (a : Ip6Address) (i : Fin 16) : Nat :=
  a.byte i

/-- The 16-bit view `mFields.m16[i]`: the two bytes it aliases, with the
lower-addressed byte in the low half (one fixed byte order for the model;
the union guarantees only that the views share the same 16 bytes). -/
def Ip6Address.get16 (a : Ip6Address) (i : Fin 8) : Nat :=
  a.byte (2 * i) + 256 * a.byte (2 * i + 1)

/-- The 32-bit view `mFields.m32[i]`: the four bytes it aliases. -/
def Ip6Address.get32 (a : Ip6Address) (i : Fin 4) : Nat :=
  a.byte (4 * i) + 256 * a.byte (4 * i + 1) +
    65536 * a.byte (4 * i + 2) + 16777216 * a.byte (4 * i + 3)

/-- Write through the 8-bit view. -/
def Ip6Address.set8 (a : Ip6Address) (i : Fin 16) (v : Fin 256) : Ip6Address :=
  a.setByte i v

/-- Write through the 16-bit view: updates exactly the two aliased bytes. -/
def Ip6Address.set16 (a : Ip6Address) (i : Fin 8) (v : Fin 65536) : Ip6Address :=
  (a.setByte (2 * i) ((v : Nat) % 256)).setByte (2 * i + 1) ((v : Nat) / 256)

/-- Write through the 32-bit view: updates exactly the four aliased bytes. -/
def Ip6Address.set32 (a : Ip6Address) (i : Fin 4) (v : Fin 4294967296) : Ip6Address :=
  ((((a.setByte (4 * i) ((v : Nat) % 256)).setByte
      (4 * i + 1) ((v : Nat) / 256 % 256)).setByte
      (4 * i + 2) ((v : Nat) / 65536 % 256)).setByte
      (4 * i + 3) ((v : Nat) / 16777216))

theorem Ip6Address.byte_lt (a : Ip6Address) (i : Nat) : a.byte i < 256 := by
  unfold Ip6Address.byte
  split
  · exact (a.m8 _).isLt
  · omega

theorem Ip6Address.byte_setByte (a : Ip6Address) (i j v : Nat) :
    (a.setByte i v).byte j = if j = i ∧ j < 16 then v % 256 else a.byte j := by
  unfold Ip6Address.byte Ip6Address.setByte
  by_cases hj : j < 16
  · by_cases hij : j = i
    · subst hij
      simp [hj]
    · simp [hj, hij]
  · simp [hj]

theorem Ip6Address.ext_byte {a b : Ip6Address}
    (h : ∀ i : Nat, a.byte i = b.byte i) : a = b := by
  cases a with
  | mk f =>
    cases b with
    | mk g =>
      congr 1
      funext j
      have hj := h j
      unfold Ip6Address.byte at hj
      simp only [j.isLt, dif_pos] at hj
      exact Fin.ext (by simpa using hj)

/-- The all-zero IPv6 address (the IPv6 unspecified address `::`). -/
def Ip6Address.zero : Ip6Address := ⟨fun _ => 0⟩

theorem Ip6Address.get8_eq_iff (a b : Ip6Address) :
    (∀ i, a.get8 i = b.get8 i) ↔ a = b := by
  constructor
  · intro h
    apply Ip6Address.ext_byte
    intro k
    by_cases hk : k < 16
    · simpa [Ip6Address.get8] using h ⟨k, hk⟩
    · simp [Ip6Address.byte, hk]
  · intro h
    subst h
    intro i
    rfl

theorem Ip6Address.get16_eq_iff (a b : Ip6Address) :
    (∀ i, a.get16 i = b.get16 i) ↔ a = b := by
  constructor
  · intro h
    apply Ip6Address.ext_byte
    intro k
    by_cases hk : k < 16
    · have hi : k / 2 < 8 := by omega
      have h2 := h ⟨k / 2, hi⟩
      simp only [Ip6Address.get16] at h2
      have b1 := a.byte_lt (2 * (k / 2))
      have b2 := a.byte_lt (2 * (k / 2) + 1)
      have b3 := b.byte_lt (2 * (k / 2))
      have b4 := b.byte_lt (2 * (k / 2) + 1)
      have hcases : k = 2 * (k / 2) ∨ k = 2 * (k / 2) + 1 := by omega
      rcases hcases with hk2 | hk2 <;> rw [hk2] <;> omega
    · simp [Ip6Address.byte, hk]
  · intro h
    subst h
    intro i
    rfl

theorem Ip6Address.get32_eq_iff (a b : Ip6Address) :
    (∀ i, a.get32 i = b.get32 i) ↔ a = b := by
  constructor
  · intro h
    apply Ip6Address.ext_byte
    intro k
    by_cases hk : k < 16
    · have hi : k / 4 < 4 := by omega
      have h2 := h ⟨k / 4, hi⟩
      simp only [Ip6Address.get32] at h2
      have b1 := a.byte_lt (4 * (k / 4))
      have b2 := a.byte_lt (4 * (k / 4) + 1)
      have b3 := a.byte_lt (4 * (k / 4) + 2)
      have b4 := a.byte_lt (4 * (k / 4) + 3)
      have c1 := b.byte_lt (4 * (k / 4))
      have c2 := b.byte_lt (4 * (k / 4) + 1)
      have c3 := b.byte_lt (4 * (k / 4) + 2)
      have c4 := b.byte_lt (4 * (k / 4) + 3)
      have hcases : k = 4 * (k / 4) ∨ k = 4 * (k / 4) + 1 ∨
          k = 4 * (k / 4) + 2 ∨ k = 4 * (k / 4) + 3 := by omega
      rcases hcases with hk2 | hk2 | hk2 | hk2 <;> rw [hk2] <;> omega
    · simp [Ip6Address.byte, hk]
  · intro h
    subst h
    intro i
    rfl

theorem Ip6Address.byte_set8 (a : Ip6Address) (j : Fin 16) (v : Fin 256) (k : Nat) :
    (a.set8 j v).byte k = if k = (j : Nat) then (v : Nat) else a.byte k := by
  rw [Ip6Address.set8, Ip6Address.byte_setByte]
  by_cases h : k = (j : Nat)
  · have hk : k < 16 := by omega
    simp [h, hk, Nat.mod_eq_of_lt v.isLt]
  · simp [h]

theorem Ip6Address.set16_bytes (a : Ip6Address) (i : Fin 8) (v : Fin 65536) :
    (a.set16 i v).byte (2 * i) = (v : Nat) % 256 ∧
    (a.set16 i v).byte (2 * i + 1) = (v : Nat) / 256 ∧
    ∀ k : Nat, k ≠ 2 * (i : Nat) → k ≠ 2 * (i : Nat) + 1 →
      (a.set16 i v).byte k = a.byte k := by
  have hi : (i : Nat) < 8 := i.isLt
  have hv : (v : Nat) < 65536 := v.isLt
  refine ⟨?_, ?_, ?_⟩
  · rw [Ip6Address.set16, Ip6Address.byte_setByte, Ip6Address.byte_setByte]
    have h1 : ¬(2 * (i : Nat) = 2 * (i : Nat) + 1) := by omega
    have h2 : 2 * (i : Nat) < 16 := by omega
    simp [h1, h2]
  · rw [Ip6Address.set16, Ip6Address.byte_setByte]
    have h2 : 2 * (i : Nat) + 1 < 16 := by omega
    have h3 : (v : Nat) / 256 % 256 = (v : Nat) / 256 := by omega
    simp [h2, h3]
  · intro k hk1 hk2
    rw [Ip6Address.set16, Ip6Address.byte_setByte, Ip6Address.byte_setByte]
    simp [hk1, hk2]

theorem Ip6Address.set32_bytes (a : Ip6Address) (i : Fin 4) (v : Fin 4294967296) :
    (a.set32 i v).byte (4 * i) = (v : Nat) % 256 ∧
    (a.set32 i v).byte (4 * i + 1) = (v : Nat) / 256 % 256 ∧
    (a.set32 i v).byte (4 * i + 2) = (v : Nat) / 65536 % 256 ∧
    (a.set32 i v).byte (4 * i + 3) = (v : Nat) / 16777216 ∧
    ∀ k : Nat, k ≠ 4 * (i : Nat) → k ≠ 4 * (i : Nat) + 1 →
      k ≠ 4 * (i : Nat) + 2 → k ≠ 4 * (i : Nat) + 3 →
      (a.set32 i v).byte k = a.byte k := by
  have hi : (i : Nat) < 4 := i.isLt
  have hv : (v : Nat) < 4294967296 := v.isLt
  refine ⟨?_, ?_, ?_, ?_, ?_⟩
  · rw [Ip6Address.set32, Ip6Address.byte_setByte, Ip6Address.byte_setByte,
      Ip6Address.byte_setByte, Ip6Address.byte_setByte]
    have h1 : ¬(4 * (i : Nat) = 4 * (i : Nat) + 1) := by omega
    have h2 : ¬(4 * (i : Nat) = 4 * (i : Nat) + 2) := by omega
    have h3 : ¬(4 * (i : Nat) = 4 * (i : Nat) + 3) := by omega
    have h4 : 4 * (i : Nat) < 16 := by omega
    simp [h1, h2, h3, h4]
  · rw [Ip6Address.set32, Ip6Address.byte_setByte, Ip6Address.byte_setByte,
      Ip6Address.byte_setByte]
    have h1 : ¬(4 * (i : Nat) + 1 = 4 * (i : Nat) + 2) := by omega
    have h2 : ¬(4 * (i : Nat) + 1 = 4 * (i : Nat) + 3) := by omega
    have h4 : 4 * (i : Nat) + 1 < 16 := by omega
    have h5 : (v : Nat) / 256 % 256 % 256 = (v : Nat) / 256 % 256 := by omega
    simp [h1, h2, h4, h5]
  · rw [Ip6Address.set32, Ip6Address.byte_setByte, Ip6Address.byte_setByte]
    have h1 : ¬(4 * (i : Nat) + 2 = 4 * (i : Nat) + 3) := by omega
    have h4 : 4 * (i : Nat) + 2 < 16 := by omega
    have h5 : (v : Nat) / 65536 % 256 % 256 = (v : Nat) / 65536 % 256 := by omega
    simp [h1, h4, h5]
  · rw [Ip6Address.set32, Ip6Address.byte_setByte]
    have h4 : 4 * (i : Nat) + 3 < 16 := by omega
    have h5 : (v : Nat) / 16777216 % 256 = (v : Nat) / 16777216 := by omega
    simp [h4, h5]
  · intro k hk1 hk2 hk3 hk4
    rw [Ip6Address.set32, Ip6Address.byte_setByte, Ip6Address.byte_setByte,
      Ip6Address.byte_setByte, Ip6Address.byte_setByte]
    simp [hk1, hk2, hk3, hk4]

/-- The `otIp6Prefix` structure: an IPv6 prefix is an address plus a length
(`mLength` is a `uint8_t` in the header; lengths used by the model are
in `0..128`). -/
structure Ip6Prefix where
  mPrefix : Ip6Address
  mLength : Nat
  deriving DecidableEq

/-- Bit `i` of an address in network bit order: bit 0 is the most
significant bit of byte 0, bit 15 the least significant bit of byte 1, and
so on. -/
def Ip6Address.bit (a : Ip6Address) (i : Nat) : Bool :=
  (a.byte (i / 8)).testBit (7 - i % 8)

/-- Modelled from the spec: the header declares `otIp6Prefix` but the prefix
membership test itself is not under src. Per the spec, `matchesPrefix`
returns true iff the first `mLength` bits of the address equal the first
`mLength` bits of the prefix address: whole leading bytes are compared
byte-wise, and the bits of a trailing partial byte are compared under a
mask (here by discarding the low `8 - mLength % 8` bits), not by rounding
the length to a whole byte. -/
def Ip6Address.matchesPrefix (a : Ip6Address) (p : Ip6Prefix) : Bool :=
  decide ((∀ i < p.mLength / 8, a.byte i = p.mPrefix.byte i) ∧
    (p.mLength % 8 = 0 ∨
      a.byte (p.mLength / 8) / 2 ^ (8 - p.mLength % 8) =
        p.mPrefix.byte (p.mLength / 8) / 2 ^ (8 - p.mLength % 8)))

theorem testBit_high {x t : Nat} (hx : x < 256) (h : 8 ≤ t) :
    x.testBit t = false := by
  apply Nat.testBit_eq_false_of_lt
  calc x < 256 := hx
    _ = 2 ^ 8 := by norm_num
    _ ≤ 2 ^ t := Nat.pow_le_pow_right (by norm_num) h

theorem byte_eq_iff_bits {x y : Nat} (hx : x < 256) (hy : y < 256) :
    x = y ↔ ∀ j < 8, x.testBit (7 - j) = y.testBit (7 - j) := by
  constructor
  · intro h
    subst h
    intro j _
    rfl
  · intro h
    apply Nat.eq_of_testBit_eq
    intro t
    by_cases ht : t < 8
    · have h2 := h (7 - t) (by omega)
      have h7 : 7 - (7 - t) = t := by omega
      rwa [h7] at h2
    · rw [testBit_high hx (by omega), testBit_high hy (by omega)]

theorem shifted_eq_iff_bits {x y r : Nat} (hx : x < 256) (hy : y < 256)
    (hr0 : 0 < r) (hr8 : r ≤ 8) :
    x / 2 ^ (8 - r) = y / 2 ^ (8 - r) ↔
      ∀ j < r, x.testBit (7 - j) = y.testBit (7 - j) := by
  rw [← Nat.shiftRight_eq_div_pow, ← Nat.shiftRight_eq_div_pow]
  constructor
  · intro h j hj
    have h1 : (x >>> (8 - r)).testBit (r - 1 - j) =
        (y >>> (8 - r)).testBit (r - 1 - j) := by rw [h]
    rw [Nat.testBit_shiftRight, Nat.testBit_shiftRight] at h1
    have he : 8 - r + (r - 1 - j) = 7 - j := by omega
    rwa [he] at h1
  · intro h
    apply Nat.eq_of_testBit_eq
    intro t
    rw [Nat.testBit_shiftRight, Nat.testBit_shiftRight]
    by_cases ht : t < r
    · have h2 := h (r - 1 - t) (by omega)
      have he : 7 - (r - 1 - t) = 8 - r + t := by omega
      rwa [he] at h2
    · rw [testBit_high hx (by omega), testBit_high hy (by omega)]

/-- Modelled from the spec: the header declares `otIp6Prefix` but no
constructor for it is under src. Per the spec, constructing a prefix with a
length greater than 128 is a caller contract violation signalled with
`InvalidArgs`; any length in `0..128` succeeds, and the Address Model can
fail in no other way. -/
def mkIp6Prefix (a : Ip6Address) (len : Nat) : Except ThreadError Ip6Prefix :=
  if len ≤ 128 then Except.ok ⟨a, len⟩ else Except.error ThreadError.InvalidArgs

/-- The `otNetifAddress` structure (the intrusive `mNext` link is replaced
by position in the registry list below). -/
structure NetifAddress where
  mAddress : Ip6Address
  mPreferredLifetime : Nat
  mValidLifetime : Nat
  mPrefixLength : Nat
  deriving DecidableEq

/-- Modelled from the spec: the header declares `otNetifAddress` with its
intrusive `mNext` link but the registry operations are not under src. Per
the spec, `remove` deletes the first node whose address matches byte-wise
and reports `NotFound` when no node matches, leaving the list unchanged. -/
def netifRemove (l : List NetifAddress) (a : Ip6Address) :
    ThreadError × List NetifAddress :=
  match l with
  | [] => (ThreadError.NotFound, [])
  | x :: xs =>
    if x.mAddress = a then (ThreadError.None, xs)
    else ((netifRemove xs a).1, x :: (netifRemove xs a).2)

/-- Modelled from the spec: `find` returns a borrowed reference to the
first node whose address matches byte-wise, or "not found". -/
def netifFind (l : List NetifAddress) (a : Ip6Address) : Option NetifAddress :=
  l.find? (fun x => x.mAddress = a)

/-- Modelled from the spec: `add` appends a node; when the registry is
backed by a fixed arena of `capacity` slots, insertion into a full registry
fails with `NoBufs` and changes nothing. -/
def netifAdd (capacity : Nat) (l : List NetifAddress) (n : NetifAddress) :
    ThreadError × List NetifAddress :=
  if l.length < capacity then (ThreadError.None, l ++ [n]) else (ThreadError.NoBufs, l)

/-- The `otSockAddr` structure. -/
structure SockAddr where
  mAddress : Ip6Address
  mPort : Nat
  mScopeId : Nat
  deriving DecidableEq

/-- The `otMessageInfo` structure; `mLinkInfo` is an opaque borrowed token. -/
structure MessageInfo where
  mSockAddr : Ip6Address
  mPeerAddr : Ip6Address
  mSockPort : Nat
  mPeerPort : Nat
  mInterfaceId : Nat
  mHopLimit : Nat
  mLinkInfo : Nat
  deriving DecidableEq

/-- The `otUdpSocket` structure; the `otUdpReceive` handler and the user
context are opaque caller-supplied tokens, and the intrusive `mNext` link
is replaced by position in the registry list. -/
structure UdpSocket where
  mSockName : SockAddr
  mPeerName : SockAddr
  mHandler : Nat
  mContext : Nat
  deriving DecidableEq

/-- Modelled from the spec: bind registers a new socket unless some already
registered socket holds exactly the same (local address, local port) pair,
in which case it fails with `InvalidState` and registers nothing. -/
def udpBind (l : List UdpSocket) (s : UdpSocket) : ThreadError × List UdpSocket :=
  if l.any (fun t => t.mSockName.mAddress = s.mSockName.mAddress ∧
      t.mSockName.mPort = s.mSockName.mPort) then
    (ThreadError.InvalidState, l)
  else
    (ThreadError.None, s :: l)

/-- The unspecified (all-zero) address, used for wildcard binding. -/
def Ip6Address.isUnspecified (a : Ip6Address) : Bool :=
  decide (∀ i, a.m8 i = 0)

/-- Modelled from the spec: a registered socket matches an inbound
datagram's destination when the ports agree and the socket's local address
is either the wildcard (unspecified) address or byte-identical to the
destination address. -/
def sockMatches (t : UdpSocket) (dst : SockAddr) : Bool :=
  decide (t.mSockName.mPort = dst.mPort) &&
    (t.mSockName.mAddress.isUnspecified ||
      decide (t.mSockName.mAddress = dst.mAddress))

/-- Modelled from the spec: dispatch of an inbound datagram. It selects the
first registered socket whose local name matches the destination and
returns the handler invocation (the matched socket, the opaque message
handle, and the populated `MessageInfo`); when no socket matches it invokes
no handler and reports `NoRoute`. -/
def udpDispatch (l : List UdpSocket) (src dst : SockAddr) (msg : Nat)
    (interfaceId hopLimit linkInfo : Nat) :
    ThreadError × Option (UdpSocket × Nat × MessageInfo) :=
  match l.find? (fun t => sockMatches t dst) with
  | some t =>
    (ThreadError.None,
      some (t, msg,
        ⟨dst.mAddress, src.mAddress, dst.mPort, src.mPort,
          interfaceId, hopLimit, linkInfo⟩))
  | none => (ThreadError.NoRoute, none)

/-- The `otBorderRouterConfig` structure: a prefix, the 2-bit signed
`mPreference` bitfield (modelled as an `Int` whose legal range is `-2..1`),
and six single-bit boolean flags, in the header's field order. -/
structure BorderRouterConfig where
  mPrefix : Ip6Prefix
  mPreference : Int
  mSlaacPreferred : Bool
  mSlaacValid : Bool
  mDhcp : Bool
  mConfigure : Bool
  mDefaultRoute : Bool
  mStable : Bool
  deriving DecidableEq

/-- The `otExternalRouteConfig` structure. -/
structure ExternalRouteConfig where
  mPrefix : Ip6Prefix
  mPreference : Int
  mStable : Bool
  deriving DecidableEq

/-- Storage image of the 2-bit signed `mPreference` bitfield: the value's
two's-complement low two bits, exactly what the C bitfield stores. -/
def encPref (p : Int) : Nat :=
  (p % 4).toNat

/-- Reading the 2-bit signed bitfield back: sign-extend the stored two
bits (values 2 and 3 read back as -2 and -1). -/
def decPref (n : Nat) : Int :=
  if n % 4 < 2 then ((n % 4 : Nat) : Int) else ((n % 4 : Nat) : Int) - 4

/-- The stored image of one single-bit boolean flag. -/
def bitOf (b : Bool) : Nat :=
  if b then 1 else 0

/-- Modelled from the spec: storing a `BorderRouterConfig` packs the
preference and the six flags into one byte alongside the prefix, in the
header's bitfield order (preference in bits 0-1, then the flags). -/
def storeBorderRouterConfig (c : BorderRouterConfig) : Ip6Prefix × Nat :=
  (c.mPrefix,
    encPref c.mPreference + 4 * bitOf c.mSlaacPreferred + 8 * bitOf c.mSlaacValid +
      16 * bitOf c.mDhcp + 32 * bitOf c.mConfigure + 64 * bitOf c.mDefaultRoute +
      128 * bitOf c.mStable)

/-- Modelled from the spec: reading a stored `BorderRouterConfig` back. -/
def loadBorderRouterConfig (s : Ip6Prefix × Nat) : BorderRouterConfig :=
  ⟨s.1, decPref s.2,
    decide (s.2 / 4 % 2 = 1), decide (s.2 / 8 % 2 = 1), decide (s.2 / 16 % 2 = 1),
    decide (s.2 / 32 % 2 = 1), decide (s.2 / 64 % 2 = 1), decide (s.2 / 128 % 2 = 1)⟩

/-- Modelled from the spec: storing an `ExternalRouteConfig` packs the
preference (bits 0-1) and the stable flag (bit 2) alongside the prefix. -/
def storeExternalRouteConfig (c : ExternalRouteConfig) : Ip6Prefix × Nat :=
  (c.mPrefix, encPref c.mPreference + 4 * bitOf c.mStable)

/-- Modelled from the spec: reading a stored `ExternalRouteConfig` back. -/
def loadExternalRouteConfig (s : Ip6Prefix × Nat) : ExternalRouteConfig :=
  ⟨s.1, decPref s.2, decide (s.2 / 4 % 2 = 1)⟩

theorem bitOf_le (b : Bool) : bitOf b ≤ 1 := by
  unfold bitOf
  split <;> omega

theorem decide_eq_bool (n : Nat) (b : Bool) (h : n = bitOf b) :
    decide (n = 1) = b := by
  subst h
  cases b <;> rfl

theorem encPref_lt (p : Int) : encPref p < 4 := by
  unfold encPref
  omega

theorem decPref_encPref_add (p : Int) (k : Nat)
    (h1 : -2 ≤ p) (h2 : p ≤ 1) : decPref (encPref p + 4 * k) = p := by
  have hP := encPref_lt p
  unfold decPref
  have hm : (encPref p + 4 * k) % 4 = encPref p := by omega
  rw [hm]
  unfold encPref at *
  split <;> omega

theorem borderRouterFields (p : Int) (h1 : -2 ≤ p) (h2 : p ≤ 1)
    (a b c d e f : Bool) :
    decPref (encPref p + 4 * bitOf a + 8 * bitOf b + 16 * bitOf c +
        32 * bitOf d + 64 * bitOf e + 128 * bitOf f) = p ∧
    decide ((encPref p + 4 * bitOf a + 8 * bitOf b + 16 * bitOf c +
        32 * bitOf d + 64 * bitOf e + 128 * bitOf f) / 4 % 2 = 1) = a ∧
    decide ((encPref p + 4 * bitOf a + 8 * bitOf b + 16 * bitOf c +
        32 * bitOf d + 64 * bitOf e + 128 * bitOf f) / 8 % 2 = 1) = b ∧
    decide ((encPref p + 4 * bitOf a + 8 * bitOf b + 16 * bitOf c +
        32 * bitOf d + 64 * bitOf e + 128 * bitOf f) / 16 % 2 = 1) = c ∧
    decide ((encPref p + 4 * bitOf a + 8 * bitOf b + 16 * bitOf c +
        32 * bitOf d + 64 * bitOf e + 128 * bitOf f) / 32 % 2 = 1) = d ∧
    decide ((encPref p + 4 * bitOf a + 8 * bitOf b + 16 * bitOf c +
        32 * bitOf d + 64 * bitOf e + 128 * bitOf f) / 64 % 2 = 1) = e ∧
    decide ((encPref p + 4 * bitOf a + 8 * bitOf b + 16 * bitOf c +
        32 * bitOf d + 64 * bitOf e + 128 * bitOf f) / 128 % 2 = 1) = f := by
  have hP := encPref_lt p
  have hA := bitOf_le a
  have hB := bitOf_le b
  have hC := bitOf_le c
  have hD := bitOf_le d
  have hE := bitOf_le e
  have hF := bitOf_le f
  refine ⟨?_, ?_, ?_, ?_, ?_, ?_, ?_⟩
  · have hk : encPref p + 4 * bitOf a + 8 * bitOf b + 16 * bitOf c +
        32 * bitOf d + 64 * bitOf e + 128 * bitOf f =
        encPref p + 4 * (bitOf a + 2 * bitOf b + 4 * bitOf c +
          8 * bitOf d + 16 * bitOf e + 32 * bitOf f) := by omega
    rw [hk]
    exact decPref_encPref_add p _ h1 h2
  all_goals
    apply decide_eq_bool
    omega

theorem borderRouterRoundtrip (c : BorderRouterConfig)
    (h1 : -2 ≤ c.mPreference) (h2 : c.mPreference ≤ 1) :
    loadBorderRouterConfig (storeBorderRouterConfig c) = c := by
  obtain ⟨pre, p, a, b, cc, d, e, f⟩ := c
  simp only at h1 h2
  obtain ⟨e1, e2, e3, e4, e5, e6, e7⟩ := borderRouterFields p h1 h2 a b cc d e f
  simp only [storeBorderRouterConfig, loadBorderRouterConfig]
  rw [BorderRouterConfig.mk.injEq]
  exact ⟨rfl, e1, e2, e3, e4, e5, e6, e7⟩

theorem externalRouteFields (p : Int) (h1 : -2 ≤ p) (h2 : p ≤ 1) (a : Bool) :
    decPref (encPref p + 4 * bitOf a) = p ∧
    decide ((encPref p + 4 * bitOf a) / 4 % 2 = 1) = a := by
  have hP := encPref_lt p
  have hA := bitOf_le a
  refine ⟨decPref_encPref_add p _ h1 h2, ?_⟩
  apply decide_eq_bool
  omega

theorem externalRouteRoundtrip (c : ExternalRouteConfig)
    (h1 : -2 ≤ c.mPreference) (h2 : c.mPreference ≤ 1) :
    loadExternalRouteConfig (storeExternalRouteConfig c) = c := by
  obtain ⟨pre, p, a⟩ := c
  simp only at h1 h2
  obtain ⟨e1, e2⟩ := externalRouteFields p h1 h2 a
  simp only [storeExternalRouteConfig, loadExternalRouteConfig]
  rw [ExternalRouteConfig.mk.injEq]
  exact ⟨rfl, e1, e2⟩

/-- The `otMacCounters` structure: 25 unsigned 32-bit counters, in the
header's field order, each modelled as a `Nat` kept below 2^32 by the
wrapping increment operations. -/
structure MacCounters where
  mTxTotal : Nat
  mTxAckRequested : Nat
  mTxAcked : Nat
  mTxNoAckRequested : Nat
  mTxData : Nat
  mTxDataPoll : Nat
  mTxBeacon : Nat
  mTxBeaconRequest : Nat
  mTxOther : Nat
  mTxRetry : Nat
  mTxErrCca : Nat
  mRxTotal : Nat
  mRxData : Nat
  mRxDataPoll : Nat
  mRxBeacon : Nat
  mRxBeaconRequest : Nat
  mRxOther : Nat
  mRxWhitelistFiltered : Nat
  mRxDestAddrFiltered : Nat
  mRxErrNoFrame : Nat
  mRxErrUnknownNeighbor : Nat
  mRxErrInvalidSrcAddr : Nat
  mRxErrSec : Nat
  mRxErrFcs : Nat
  mRxErrOther : Nat
  deriving DecidableEq

/-- Modelled from the spec: `reset()` zeroes every counter field. -/
def MacCounters.reset : MacCounters :=
  ⟨0, 0, 0, 0, 0, 0, 0, 0, 0, 0, 0, 0, 0, 0, 0, 0, 0, 0, 0, 0, 0, 0, 0, 0, 0⟩

/-- Modelled from the spec: the event-recording operation that increments
`mTxTotal`; unsigned 32-bit arithmetic wraps and signals no error (the
operation returns the new counters and nothing else). -/
def MacCounters.incTxTotal (c : MacCounters) : MacCounters :=
  { c with mTxTotal := (c.mTxTotal + 1) % 4294967296 }

theorem incTxTotal_iterate (c : MacCounters) (n : Nat)
    (h : c.mTxTotal < 4294967296) :
    (MacCounters.incTxTotal^[n] c).mTxTotal = (c.mTxTotal + n) % 4294967296 := by
  induction n with
  | zero =>
    simp [Nat.mod_eq_of_lt h]
  | succ n ih =>
    rw [Function.iterate_succ_apply']
    simp only [MacCounters.incTxTotal]
    omega

/-- The state-changed notification flag `OT_IP6_ADDRESS_ADDED`. -/
def OT_IP6_ADDRESS_ADDED : Nat := 1 <<< 0

/-- The state-changed notification flag `OT_IP6_ADDRESS_REMOVED`. -/
def OT_IP6_ADDRESS_REMOVED : Nat := 1 <<< 1

/-- The state-changed notification flag `OT_NET_STATE`. -/
def OT_NET_STATE : Nat := 1 <<< 2

/-- The state-changed notification flag `OT_NET_ROLE`. -/
def OT_NET_ROLE : Nat := 1 <<< 3

/-- The state-changed notification flag `OT_NET_PARTITION_ID`. -/
def OT_NET_PARTITION_ID : Nat := 1 <<< 4

/-- The state-changed notification flag `OT_NET_KEY_SEQUENCE`. -/
def OT_NET_KEY_SEQUENCE : Nat := 1 <<< 5

/-- The state-changed notification flag `OT_THREAD_CHILD_ADDED`. -/
def OT_THREAD_CHILD_ADDED : Nat := 1 <<< 6

/-- The state-changed notification flag `OT_THREAD_CHILD_REMOVED`. -/
def OT_THREAD_CHILD_REMOVED : Nat := 1 <<< 7

/-- The state-changed notification flag `OT_IP6_ML_ADDR_CHANGED`. -/
def OT_IP6_ML_ADDR_CHANGED : Nat := 1 <<< 8

/-- The nine state-changed notification flags of the anonymous enum in the
header, in declaration order. -/
def stateChangedFlags : Fin 9 → Nat :=
  ![OT_IP6_ADDRESS_ADDED, OT_IP6_ADDRESS_REMOVED, OT_NET_STATE, OT_NET_ROLE,
    OT_NET_PARTITION_ID, OT_NET_KEY_SEQUENCE, OT_THREAD_CHILD_ADDED,
    OT_THREAD_CHILD_REMOVED, OT_IP6_ML_ADDR_CHANGED]

/-- The bitwise OR of the flags selected by `choice`, the combined
"what changed" mask a collaborator emits. -/
def orMask (choice : Fin 9 → Bool) : Nat :=
  (List.ofFn (fun i => if choice i then stateChangedFlags i else 0)).foldr
    (fun x y => x ||| y) 0

end OpenThread

/-- C1 counterexample: the `ThreadError` enumeration does not have 26
variants: it has 27 (codes 0 through 25 plus the sentinel code 255). -/
theorem C1_counterexample :
    Fintype.card OpenThread.ThreadError = 27 ∧ (27 : Nat) ≠ 26 := by
  decide

/-- C2: the three numeric views of an `Ip6Address` are three interpretations
of the same 16 bytes: an address built from 16 bytes reads those bytes back
through the 8-bit view; each of the three views determines the address
completely (reading back byte-identical results); and a write through any
one view is visible through the others — it changes exactly the aliased
bytes, from which every other view is read. -/
theorem C2_three_views :
    (∀ (b : Fin 16 → Fin 256) (i : Fin 16), (OpenThread.Ip6Address.mk b).get8 i = b i) ∧
    (∀ a b : OpenThread.Ip6Address, (∀ i, a.get8 i = b.get8 i) ↔ a = b) ∧
    (∀ a b : OpenThread.Ip6Address, (∀ i, a.get16 i = b.get16 i) ↔ a = b) ∧
    (∀ a b : OpenThread.Ip6Address, (∀ i, a.get32 i = b.get32 i) ↔ a = b) ∧
    (∀ (a : OpenThread.Ip6Address) (j : Fin 16) (v : Fin 256) (k : Nat),
      (a.set8 j v).byte k = if k = (j : Nat) then (v : Nat) else a.byte k) ∧
    (∀ (a : OpenThread.Ip6Address) (i : Fin 8) (v : Fin 65536),
      (a.set16 i v).get16 i = v ∧
      (a.set16 i v).byte (2 * i) = (v : Nat) % 256 ∧
      (a.set16 i v).byte (2 * i + 1) = (v : Nat) / 256 ∧
      ∀ k : Nat, k ≠ 2 * (i : Nat) → k ≠ 2 * (i : Nat) + 1 →
        (a.set16 i v).byte k = a.byte k) ∧
    (∀ (a : OpenThread.Ip6Address) (i : Fin 4) (v : Fin 4294967296),
      (a.set32 i v).get32 i = v ∧
      (a.set32 i v).byte (4 * i) = (v : Nat) % 256 ∧
      (a.set32 i v).byte (4 * i + 1) = (v : Nat) / 256 % 256 ∧
      (a.set32 i v).byte (4 * i + 2) = (v : Nat) / 65536 % 256 ∧
      (a.set32 i v).byte (4 * i + 3) = (v : Nat) / 16777216 ∧
      ∀ k : Nat, k ≠ 4 * (i : Nat) → k ≠ 4 * (i : Nat) + 1 →
        k ≠ 4 * (i : Nat) + 2 → k ≠ 4 * (i : Nat) + 3 →
        (a.set32 i v).byte k = a.byte k) := by
  refine ⟨?_, OpenThread.Ip6Address.get8_eq_iff, OpenThread.Ip6Address.get16_eq_iff,
    OpenThread.Ip6Address.get32_eq_iff, OpenThread.Ip6Address.byte_set8, ?_, ?_⟩
  · intro b i
    simp [OpenThread.Ip6Address.get8, OpenThread.Ip6Address.byte, i.isLt]
  · intro a i v
    obtain ⟨h1, h2, h3⟩ := a.set16_bytes i v
    refine ⟨?_, h1, h2, h3⟩
    rw [OpenThread.Ip6Address.get16, h1, h2]
    have := v.isLt
    omega
  · intro a i v
    obtain ⟨h1, h2, h3, h4, h5⟩ := a.set32_bytes i v
    refine ⟨?_, h1, h2, h3, h4, h5⟩
    rw [OpenThread.Ip6Address.get32, h1, h2, h3, h4]
    have := v.isLt
    omega

/-- C2 witness: concrete evaluation — writing 0x1234 through the 16-bit
view of the zero address reads back through the 16-bit and 8-bit views. -/
theorem C2_three_views_witness :
    (OpenThread.Ip6Address.zero.set16 0 ⟨4660, by decide⟩).get16 0 = 4660 ∧
    (OpenThread.Ip6Address.zero.set16 0 ⟨4660, by decide⟩).byte 2 =
      OpenThread.Ip6Address.zero.byte 2 :=
  ⟨(C2_three_views.2.2.2.2.2.1 OpenThread.Ip6Address.zero 0 ⟨4660, by decide⟩).1,
   (C2_three_views.2.2.2.2.2.1 OpenThread.Ip6Address.zero 0
     ⟨4660, by decide⟩).2.2.2 2 (by decide) (by decide)⟩

/-- C3: for every address and every prefix of length L ≤ 128,
`matchesPrefix` is true iff the first L bits of the address equal the first
L bits of the prefix address (bits past the last whole byte are compared
under a mask, never by rounding L up to a byte); with L = 0 every address
matches. -/
theorem C3_matchesPrefix (a : OpenThread.Ip6Address) (p : OpenThread.Ip6Prefix)
    (hL : p.mLength ≤ 128) :
    (a.matchesPrefix p = true ↔
      ∀ i < p.mLength, a.bit i = p.mPrefix.bit i) ∧
    (p.mLength = 0 → a.matchesPrefix p = true) := by
  have hmain : a.matchesPrefix p = true ↔
      ∀ i < p.mLength, a.bit i = p.mPrefix.bit i := by
    simp only [OpenThread.Ip6Address.matchesPrefix, decide_eq_true_eq]
    constructor
    · rintro ⟨hfull, hpart⟩ i hi
      simp only [OpenThread.Ip6Address.bit]
      by_cases hq : i / 8 < p.mLength / 8
      · rw [hfull (i / 8) hq]
      · have hq8 : i / 8 = p.mLength / 8 := by omega
        have hrlt : i % 8 < p.mLength % 8 := by omega
        rcases hpart with h0 | hsh
        · omega
        · have hiff := OpenThread.shifted_eq_iff_bits
            (a.byte_lt (p.mLength / 8)) (p.mPrefix.byte_lt (p.mLength / 8))
            (show 0 < p.mLength % 8 by omega) (show p.mLength % 8 ≤ 8 by omega)
          have h2 := (hiff.mp hsh) (i % 8) hrlt
          rw [hq8]
          exact h2
    · intro h
      constructor
      · intro i hi
        apply (OpenThread.byte_eq_iff_bits (a.byte_lt i) (p.mPrefix.byte_lt i)).mpr
        intro j hj
        have hbit := h (8 * i + j) (by omega)
        simp only [OpenThread.Ip6Address.bit] at hbit
        have hdiv : (8 * i + j) / 8 = i := by omega
        have hmod : (8 * i + j) % 8 = j := by omega
        rwa [hdiv, hmod] at hbit
      · by_cases hr : p.mLength % 8 = 0
        · exact Or.inl hr
        · right
          apply (OpenThread.shifted_eq_iff_bits
            (a.byte_lt (p.mLength / 8)) (p.mPrefix.byte_lt (p.mLength / 8))
            (show 0 < p.mLength % 8 by omega)
            (show p.mLength % 8 ≤ 8 by omega)).mpr
          intro j hj
          have hbit := h (8 * (p.mLength / 8) + j) (by omega)
          simp only [OpenThread.Ip6Address.bit] at hbit
          have hdiv : (8 * (p.mLength / 8) + j) / 8 = p.mLength / 8 := by omega
          have hmod : (8 * (p.mLength / 8) + j) % 8 = j := by omega
          rwa [hdiv, hmod] at hbit
  refine ⟨hmain, fun h0 => hmain.mpr ?_⟩
  intro i hi
  omega

/-- C3 witness: a length-9 prefix (one whole byte plus one masked bit) over
concrete addresses, exercised through the theorem. -/
theorem C3_matchesPrefix_witness :
    (OpenThread.Ip6Address.zero.matchesPrefix ⟨OpenThread.Ip6Address.zero, 9⟩ = true ↔
      ∀ i < 9, OpenThread.Ip6Address.zero.bit i = OpenThread.Ip6Address.zero.bit i) ∧
    OpenThread.Ip6Address.zero.matchesPrefix ⟨OpenThread.Ip6Address.zero, 9⟩ = true :=
  ⟨(C3_matchesPrefix OpenThread.Ip6Address.zero ⟨OpenThread.Ip6Address.zero, 9⟩
      (by norm_num)).1,
   (C3_matchesPrefix OpenThread.Ip6Address.zero ⟨OpenThread.Ip6Address.zero, 9⟩
      (by norm_num)).1.mpr (fun i _ => rfl)⟩

/-- C4: constructing an `Ip6Prefix` with a length greater than 128 fails by
signalling `InvalidArgs`; construction with any length in `0..128`
succeeds; and `InvalidArgs` on an over-long length is the only runtime
failure the Address Model itself can produce. -/
theorem C4_mkIp6Prefix (a : OpenThread.Ip6Address) (len : Nat) :
    (128 < len →
      OpenThread.mkIp6Prefix a len =
        Except.error OpenThread.ThreadError.InvalidArgs) ∧
    (len ≤ 128 → OpenThread.mkIp6Prefix a len = Except.ok ⟨a, len⟩) ∧
    (∀ e, OpenThread.mkIp6Prefix a len = Except.error e →
      e = OpenThread.ThreadError.InvalidArgs ∧ 128 < len) := by
  refine ⟨?_, ?_, ?_⟩
  · intro hgt
    unfold OpenThread.mkIp6Prefix
    rw [if_neg (by omega)]
  · intro hle
    unfold OpenThread.mkIp6Prefix
    rw [if_pos hle]
  · intro e he
    unfold OpenThread.mkIp6Prefix at he
    by_cases h : len ≤ 128
    · rw [if_pos h] at he
      exact absurd he (by simp)
    · rw [if_neg h] at he
      simp only [Except.error.injEq] at he
      exact ⟨he.symm, by omega⟩

/-- C4 witness: length 129 is rejected with `InvalidArgs`, length 64 is
accepted. -/
theorem C4_mkIp6Prefix_witness :
    OpenThread.mkIp6Prefix OpenThread.Ip6Address.zero 129 =
      Except.error OpenThread.ThreadError.InvalidArgs ∧
    OpenThread.mkIp6Prefix OpenThread.Ip6Address.zero 64 =
      Except.ok ⟨OpenThread.Ip6Address.zero, 64⟩ :=
  ⟨(C4_mkIp6Prefix OpenThread.Ip6Address.zero 129).1 (by norm_num),
   (C4_mkIp6Prefix OpenThread.Ip6Address.zero 64).2.1 (by norm_num)⟩

/-- C5: removing an address that is on no node of the interface address
registry returns `NotFound` and leaves the registry unchanged; more
generally every registry operation that reports an error (remove reporting
other than success, add reporting `NoBufs` on a full arena) leaves the
prior registry state unchanged. -/
theorem C5_registry_error_safety :
    (∀ (l : List OpenThread.NetifAddress) (a : OpenThread.Ip6Address),
      (∀ x ∈ l, x.mAddress ≠ a) →
        OpenThread.netifRemove l a = (OpenThread.ThreadError.NotFound, l)) ∧
    (∀ (l : List OpenThread.NetifAddress) (a : OpenThread.Ip6Address),
      (OpenThread.netifRemove l a).1 ≠ OpenThread.ThreadError.None →
        (OpenThread.netifRemove l a).2 = l) ∧
    (∀ (cap : Nat) (l : List OpenThread.NetifAddress) (n : OpenThread.NetifAddress),
      (OpenThread.netifAdd cap l n).1 ≠ OpenThread.ThreadError.None →
        (OpenThread.netifAdd cap l n).2 = l) := by
  refine ⟨?_, ?_, ?_⟩
  · intro l a h
    induction l with
    | nil => rfl
    | cons x xs ih =>
      have hx : ¬(x.mAddress = a) := h x (List.mem_cons_self x xs)
      have ih2 := ih (fun y hy => h y (List.mem_cons_of_mem x hy))
      unfold OpenThread.netifRemove
      rw [if_neg hx, ih2]
  · intro l a
    induction l with
    | nil => intro _; rfl
    | cons x xs ih =>
      intro h
      unfold OpenThread.netifRemove at h ⊢
      by_cases hx : x.mAddress = a
      · rw [if_pos hx] at h
        exact absurd rfl h
      · rw [if_neg hx] at h ⊢
        simp only at h ⊢
        rw [ih h]
  · intro cap l n h
    unfold OpenThread.netifAdd at h ⊢
    by_cases hc : l.length < cap
    · rw [if_pos hc] at h
      exact absurd rfl h
    · rw [if_neg hc]

/-- C5 witness: concrete registry operations exercised through the
theorem — remove from the empty registry is a `NotFound` no-op, and add
into a zero-capacity arena leaves it unchanged. -/
theorem C5_registry_error_safety_witness :
    OpenThread.netifRemove [] OpenThread.Ip6Address.zero =
      (OpenThread.ThreadError.NotFound, []) ∧
    (OpenThread.netifRemove [] OpenThread.Ip6Address.zero).2 = [] ∧
    (OpenThread.netifAdd 0 [] ⟨OpenThread.Ip6Address.zero, 0, 0, 64⟩).2 = [] :=
  ⟨C5_registry_error_safety.1 [] OpenThread.Ip6Address.zero (by simp),
   C5_registry_error_safety.2.1 [] OpenThread.Ip6Address.zero (by decide),
   C5_registry_error_safety.2.2 0 [] ⟨OpenThread.Ip6Address.zero, 0, 0, 64⟩
     (by decide)⟩

/-- C6: at most one socket may hold a given exact (local address, local
port) pair — whenever the registry already contains a socket bound to the
same exact pair as the socket being bound, the bind fails with
`InvalidState` (one of the two signals the spec allows) and registers no
new socket. -/
theorem C6_bind_exclusive (l : List OpenThread.UdpSocket)
    (s t : OpenThread.UdpSocket) (ht : t ∈ l)
    (ha : t.mSockName.mAddress = s.mSockName.mAddress)
    (hp : t.mSockName.mPort = s.mSockName.mPort) :
    ((OpenThread.udpBind l s).1 = OpenThread.ThreadError.InvalidState ∨
      (OpenThread.udpBind l s).1 = OpenThread.ThreadError.Busy) ∧
    (OpenThread.udpBind l s).2 = l := by
  have hany : (l.any (fun u => u.mSockName.mAddress = s.mSockName.mAddress ∧
      u.mSockName.mPort = s.mSockName.mPort)) = true := by
    rw [List.any_eq_true]
    exact ⟨t, ht, by simp [ha, hp]⟩
  unfold OpenThread.udpBind
  rw [if_pos hany]
  exact ⟨Or.inl rfl, rfl⟩

/-- C6 witness: rebinding the exact pair already held by a registered
socket fails and changes nothing. -/
theorem C6_bind_exclusive_witness :
    ((OpenThread.udpBind
        [⟨⟨OpenThread.Ip6Address.zero, 1000, 0⟩, ⟨OpenThread.Ip6Address.zero, 0, 0⟩, 7, 42⟩]
        ⟨⟨OpenThread.Ip6Address.zero, 1000, 0⟩, ⟨OpenThread.Ip6Address.zero, 0, 0⟩, 8, 43⟩).1 =
          OpenThread.ThreadError.InvalidState ∨
      (OpenThread.udpBind
        [⟨⟨OpenThread.Ip6Address.zero, 1000, 0⟩, ⟨OpenThread.Ip6Address.zero, 0, 0⟩, 7, 42⟩]
        ⟨⟨OpenThread.Ip6Address.zero, 1000, 0⟩, ⟨OpenThread.Ip6Address.zero, 0, 0⟩, 8, 43⟩).1 =
          OpenThread.ThreadError.Busy) ∧
    (OpenThread.udpBind
        [⟨⟨OpenThread.Ip6Address.zero, 1000, 0⟩, ⟨OpenThread.Ip6Address.zero, 0, 0⟩, 7, 42⟩]
        ⟨⟨OpenThread.Ip6Address.zero, 1000, 0⟩, ⟨OpenThread.Ip6Address.zero, 0, 0⟩, 8, 43⟩).2 =
      [⟨⟨OpenThread.Ip6Address.zero, 1000, 0⟩, ⟨OpenThread.Ip6Address.zero, 0, 0⟩, 7, 42⟩] :=
  C6_bind_exclusive
    [⟨⟨OpenThread.Ip6Address.zero, 1000, 0⟩, ⟨OpenThread.Ip6Address.zero, 0, 0⟩, 7, 42⟩]
    ⟨⟨OpenThread.Ip6Address.zero, 1000, 0⟩, ⟨OpenThread.Ip6Address.zero, 0, 0⟩, 8, 43⟩
    ⟨⟨OpenThread.Ip6Address.zero, 1000, 0⟩, ⟨OpenThread.Ip6Address.zero, 0, 0⟩, 7, 42⟩
    (List.mem_singleton.mpr rfl) rfl rfl

/-- C7: when no registered socket's local name matches the datagram's
destination (ports compared exactly, socket addresses matching either as
wildcard or byte-identically), dispatch invokes no handler and reports
`NoRoute`; when the first matching socket is found, dispatch returns that
socket's handler invocation with the message handle and a `MessageInfo`
populated from the datagram's source and destination. -/
theorem C7_dispatch (l : List OpenThread.UdpSocket)
    (src dst : OpenThread.SockAddr) (msg ifc hop link : Nat) :
    ((∀ t ∈ l, OpenThread.sockMatches t dst = false) →
      OpenThread.udpDispatch l src dst msg ifc hop link =
        (OpenThread.ThreadError.NoRoute, none)) ∧
    (∀ t, l.find? (fun u => OpenThread.sockMatches u dst) = some t →
      OpenThread.udpDispatch l src dst msg ifc hop link =
        (OpenThread.ThreadError.None,
          some (t, msg,
            ⟨dst.mAddress, src.mAddress, dst.mPort, src.mPort, ifc, hop, link⟩)) ∧
      OpenThread.sockMatches t dst = true ∧ t ∈ l) := by
  constructor
  · intro h
    have hnone : l.find? (fun u => OpenThread.sockMatches u dst) = none := by
      rw [List.find?_eq_none]
      intro x hx
      simp [h x hx]
    unfold OpenThread.udpDispatch
    rw [hnone]
  · intro t hfind
    unfold OpenThread.udpDispatch
    rw [hfind]
    refine ⟨rfl, ?_, List.mem_of_find?_eq_some hfind⟩
    have h2 := List.find?_some hfind
    simpa using h2

/-- C7 witness: dispatch over the empty registry reports `NoRoute` with no
handler invocation, and dispatch to a registered matching socket returns
that socket with the populated message info. -/
theorem C7_dispatch_witness :
    OpenThread.udpDispatch [] ⟨OpenThread.Ip6Address.zero, 5, 0⟩
        ⟨OpenThread.Ip6Address.zero, 1000, 0⟩ 11 1 64 9 =
      (OpenThread.ThreadError.NoRoute, none) ∧
    OpenThread.udpDispatch
        [⟨⟨OpenThread.Ip6Address.zero, 1000, 0⟩, ⟨OpenThread.Ip6Address.zero, 0, 0⟩, 7, 42⟩]
        ⟨OpenThread.Ip6Address.zero, 5, 0⟩ ⟨OpenThread.Ip6Address.zero, 1000, 0⟩ 11 1 64 9 =
      (OpenThread.ThreadError.None,
        some (⟨⟨OpenThread.Ip6Address.zero, 1000, 0⟩, ⟨OpenThread.Ip6Address.zero, 0, 0⟩, 7, 42⟩,
          11, ⟨OpenThread.Ip6Address.zero, OpenThread.Ip6Address.zero, 1000, 5, 1, 64, 9⟩)) :=
  ⟨(C7_dispatch [] ⟨OpenThread.Ip6Address.zero, 5, 0⟩
      ⟨OpenThread.Ip6Address.zero, 1000, 0⟩ 11 1 64 9).1 (by simp),
   ((C7_dispatch
      [⟨⟨OpenThread.Ip6Address.zero, 1000, 0⟩, ⟨OpenThread.Ip6Address.zero, 0, 0⟩, 7, 42⟩]
      ⟨OpenThread.Ip6Address.zero, 5, 0⟩ ⟨OpenThread.Ip6Address.zero, 1000, 0⟩ 11 1 64 9).2
      ⟨⟨OpenThread.Ip6Address.zero, 1000, 0⟩, ⟨OpenThread.Ip6Address.zero, 0, 0⟩, 7, 42⟩
      (by decide)).1⟩

/-- C1 (amended): the ThreadError type is a closed enumeration with exactly
27 variants including None; None = 0 is the only success value, and
Error = 255 is a generic failure sentinel distinct from Failed = 1. -/
theorem C1_error_taxonomy :
    Fintype.card OpenThread.ThreadError = 27 ∧
    OpenThread.ThreadError.toCode .None = 0 ∧
    (∀ e : OpenThread.ThreadError, e.toCode = 0 → e = .None) ∧
    OpenThread.ThreadError.toCode .Error = 255 ∧
    OpenThread.ThreadError.toCode .Failed = 1 ∧
    OpenThread.ThreadError.Error ≠ OpenThread.ThreadError.Failed := by
  decide

/-- C8: each of the four values -2, -1, 0, 1 is a legal preference that
survives the 2-bit signed storage exactly, and every
`BorderRouterConfig` / `ExternalRouteConfig` record with an in-range
preference is preserved field-for-field (signed 2-bit preference and every
flag bit included) through a store/load round trip. -/
theorem C8_preference_roundtrip :
    (∀ p : Int, p = -2 ∨ p = -1 ∨ p = 0 ∨ p = 1 →
      OpenThread.decPref (OpenThread.encPref p) = p) ∧
    (∀ c : OpenThread.BorderRouterConfig,
      -2 ≤ c.mPreference → c.mPreference ≤ 1 →
      OpenThread.loadBorderRouterConfig (OpenThread.storeBorderRouterConfig c) = c) ∧
    (∀ c : OpenThread.ExternalRouteConfig,
      -2 ≤ c.mPreference → c.mPreference ≤ 1 →
      OpenThread.loadExternalRouteConfig (OpenThread.storeExternalRouteConfig c) = c) := by
  refine ⟨?_, OpenThread.borderRouterRoundtrip, OpenThread.externalRouteRoundtrip⟩
  intro p hp
  rcases hp with h | h | h | h <;> subst h <;> decide

/-- C8 witness: a concrete border-router record with preference -2 and a
concrete external-route record with preference 1 round-trip exactly, and
all four preference values survive the 2-bit storage. -/
theorem C8_preference_roundtrip_witness :
    OpenThread.decPref (OpenThread.encPref (-2)) = -2 ∧
    OpenThread.decPref (OpenThread.encPref (-1)) = -1 ∧
    OpenThread.decPref (OpenThread.encPref 0) = 0 ∧
    OpenThread.decPref (OpenThread.encPref 1) = 1 ∧
    OpenThread.loadBorderRouterConfig (OpenThread.storeBorderRouterConfig
      ⟨⟨OpenThread.Ip6Address.zero, 64⟩, -2, true, false, true, false, true, false⟩) =
      ⟨⟨OpenThread.Ip6Address.zero, 64⟩, -2, true, false, true, false, true, false⟩ ∧
    OpenThread.loadExternalRouteConfig (OpenThread.storeExternalRouteConfig
      ⟨⟨OpenThread.Ip6Address.zero, 64⟩, 1, true⟩) =
      ⟨⟨OpenThread.Ip6Address.zero, 64⟩, 1, true⟩ :=
  ⟨C8_preference_roundtrip.1 (-2) (Or.inl rfl),
   C8_preference_roundtrip.1 (-1) (Or.inr (Or.inl rfl)),
   C8_preference_roundtrip.1 0 (Or.inr (Or.inr (Or.inl rfl))),
   C8_preference_roundtrip.1 1 (Or.inr (Or.inr (Or.inr rfl))),
   C8_preference_roundtrip.2.1
     ⟨⟨OpenThread.Ip6Address.zero, 64⟩, -2, true, false, true, false, true, false⟩
     (by norm_num) (by norm_num),
   C8_preference_roundtrip.2.2
     ⟨⟨OpenThread.Ip6Address.zero, 64⟩, 1, true⟩ (by norm_num) (by norm_num)⟩

/-- C9: `reset` yields all 25 counter fields zero; the `mTxTotal`
event-recording increment wraps per unsigned 32-bit arithmetic (it is a
total function into `MacCounters`, signalling no error), a plain increment
below the bound adds one, and 2^32 increments starting from a reset
counter return `mTxTotal` to 0. -/
theorem C9_mac_counters :
    (OpenThread.MacCounters.reset.mTxTotal = 0 ∧
     OpenThread.MacCounters.reset.mTxAckRequested = 0 ∧
     OpenThread.MacCounters.reset.mTxAcked = 0 ∧
     OpenThread.MacCounters.reset.mTxNoAckRequested = 0 ∧
     OpenThread.MacCounters.reset.mTxData = 0 ∧
     OpenThread.MacCounters.reset.mTxDataPoll = 0 ∧
     OpenThread.MacCounters.reset.mTxBeacon = 0 ∧
     OpenThread.MacCounters.reset.mTxBeaconRequest = 0 ∧
     OpenThread.MacCounters.reset.mTxOther = 0 ∧
     OpenThread.MacCounters.reset.mTxRetry = 0 ∧
     OpenThread.MacCounters.reset.mTxErrCca = 0 ∧
     OpenThread.MacCounters.reset.mRxTotal = 0 ∧
     OpenThread.MacCounters.reset.mRxData = 0 ∧
     OpenThread.MacCounters.reset.mRxDataPoll = 0 ∧
     OpenThread.MacCounters.reset.mRxBeacon = 0 ∧
     OpenThread.MacCounters.reset.mRxBeaconRequest = 0 ∧
     OpenThread.MacCounters.reset.mRxOther = 0 ∧
     OpenThread.MacCounters.reset.mRxWhitelistFiltered = 0 ∧
     OpenThread.MacCounters.reset.mRxDestAddrFiltered = 0 ∧
     OpenThread.MacCounters.reset.mRxErrNoFrame = 0 ∧
     OpenThread.MacCounters.reset.mRxErrUnknownNeighbor = 0 ∧
     OpenThread.MacCounters.reset.mRxErrInvalidSrcAddr = 0 ∧
     OpenThread.MacCounters.reset.mRxErrSec = 0 ∧
     OpenThread.MacCounters.reset.mRxErrFcs = 0 ∧
     OpenThread.MacCounters.reset.mRxErrOther = 0) ∧
    (∀ (c : OpenThread.MacCounters) (n : Nat), c.mTxTotal < 4294967296 →
      (OpenThread.MacCounters.incTxTotal^[n] c).mTxTotal =
        (c.mTxTotal + n) % 4294967296) ∧
    (∀ c : OpenThread.MacCounters, c.mTxTotal + 1 < 4294967296 →
      c.incTxTotal.mTxTotal = c.mTxTotal + 1) ∧
    (OpenThread.MacCounters.incTxTotal^[4294967296]
      OpenThread.MacCounters.reset).mTxTotal = 0 := by
  refine ⟨by decide, fun c n h => OpenThread.incTxTotal_iterate c n h, ?_, ?_⟩
  · intro c h
    simp only [OpenThread.MacCounters.incTxTotal]
    omega
  · rw [OpenThread.incTxTotal_iterate OpenThread.MacCounters.reset 4294967296
      (by decide)]
    decide

/-- C9 witness: three increments of a reset counter through the theorem's
iterate clause, and one plain increment. -/
theorem C9_mac_counters_witness :
    (OpenThread.MacCounters.incTxTotal^[3] OpenThread.MacCounters.reset).mTxTotal =
      (OpenThread.MacCounters.reset.mTxTotal + 3) % 4294967296 ∧
    OpenThread.MacCounters.reset.incTxTotal.mTxTotal =
      OpenThread.MacCounters.reset.mTxTotal + 1 :=
  ⟨C9_mac_counters.2.1 OpenThread.MacCounters.reset 3 (by decide),
   C9_mac_counters.2.2.1 OpenThread.MacCounters.reset (by decide)⟩

set_option maxRecDepth 8192

/-- C10: the nine state-changed notification flags are 1<<0 through 1<<8
in declaration order, pairwise distinct single-bit values, and the bitwise
OR of any subset of them is lossless: each flag's presence in a combined
mask is independently recoverable. -/
theorem C10_flags_lossless :
    (∀ i : Fin 9, OpenThread.stateChangedFlags i = 2 ^ (i : Nat)) ∧
    (∀ i j : Fin 9,
      OpenThread.stateChangedFlags i = OpenThread.stateChangedFlags j → i = j) ∧
    (∀ (choice : Fin 9 → Bool) (i : Fin 9),
      (OpenThread.orMask choice &&& OpenThread.stateChangedFlags i ≠ 0) ↔
        choice i = true) := by
  decide

/-- C10 witness: recovering one selected and one unselected flag from a
concrete combined mask through the theorem. -/
theorem C10_flags_lossless_witness :
    (OpenThread.orMask (fun i => decide (i = 0 ∨ i = 8)) &&&
      OpenThread.stateChangedFlags 0 ≠ 0) ∧
    ¬(OpenThread.orMask (fun i => decide (i = 0 ∨ i = 8)) &&&
      OpenThread.stateChangedFlags 3 ≠ 0) :=
  ⟨(C10_flags_lossless.2.2 (fun i => decide (i = 0 ∨ i = 8)) 0).mpr (by decide),
   fun h => by
     have h2 := (C10_flags_lossless.2.2 (fun i => decide (i = 0 ∨ i = 8)) 3).mp h
     exact absurd h2 (by decide)⟩
